import Mathlib

/-!
Verification of the geometric core of the orthopen add-on.

The numeric code is embedded shallowly over the rationals: every Python
float expression is translated to the same expression over the exact
rationals, so the theorems are about the algorithms rather than about
floating-point rounding.  Sources:

  * helpers.object_size, helpers.mouse_ray_cast       (src/helpers.py)
  * ORTHOPEN_OT_set_foot_pivot._weight_paint          (src/operators.py)
  * ORTHOPEN_OT_leg_prosthesis_generate._adjust_scalings_and_sizes
                                                      (src/operators.py)
  * helpers.inside_polygon (called from ORTHOPEN_OT_foot_splint.execute
    but not present in the sources; modelled from the spec)
-/

/-- 3D vector over the rationals, standing in for mathutils vectors and
    numpy arrays of length 3. -/
structure Vec3 where
  x : ℚ
  y : ℚ
  z : ℚ
deriving DecidableEq

instance : Add Vec3 := ⟨fun a b => ⟨a.x + b.x, a.y + b.y, a.z + b.z⟩⟩

instance : Sub Vec3 := ⟨fun a b => ⟨a.x - b.x, a.y - b.y, a.z - b.z⟩⟩

@[simp] lemma Vec3.add_def (a b : Vec3) :
    a + b = ⟨a.x + b.x, a.y + b.y, a.z + b.z⟩ := rfl

@[simp] lemma Vec3.sub_def (a b : Vec3) :
    a - b = ⟨a.x - b.x, a.y - b.y, a.z - b.z⟩ := rfl

/-- Scalar multiplication of a vector. -/
def Vec3.smul (c : ℚ) (v : Vec3) : Vec3 := ⟨c * v.x, c * v.y, c * v.z⟩

/-- Dot product. -/
def Vec3.dot (a b : Vec3) : ℚ := a.x * b.x + a.y * b.y + a.z * b.z

/-- Cross product. -/
def Vec3.cross (a b : Vec3) : Vec3 :=
  ⟨a.y * b.z - a.z * b.y, a.z * b.x - a.x * b.z, a.x * b.y - a.y * b.x⟩

/-- Squared length, as in mathutils Vector.length_squared. -/
def Vec3.lengthSquared (a : Vec3) : ℚ := a.dot a

/-- Componentwise product, as in numpy elementwise multiplication. -/
def Vec3.hmul (a b : Vec3) : Vec3 := ⟨a.x * b.x, a.y * b.y, a.z * b.z⟩

/-- Componentwise quotient, as in numpy elementwise division.  Division by
    zero follows the convention of ℚ (yields 0) where numpy would emit an
    inf or nan with a warning; in both settings a value, not an error, is
    produced. -/
def Vec3.hdiv (a b : Vec3) : Vec3 := ⟨a.x / b.x, a.y / b.y, a.z / b.z⟩

/-- Componentwise maximum of a list of vectors, as in
    numpy amax(..., axis=0) over the bound_box corner list. -/
def amax3 : List Vec3 → Vec3
  | [] => ⟨0, 0, 0⟩
  | v :: vs => vs.foldl (fun a b => ⟨max a.x b.x, max a.y b.y, max a.z b.z⟩) v

/-- Componentwise minimum of a list of vectors, as in
    numpy amin(..., axis=0) over the bound_box corner list. -/
def amin3 : List Vec3 → Vec3
  | [] => ⟨0, 0, 0⟩
  | v :: vs => vs.foldl (fun a b => ⟨min a.x b.x, min a.y b.y, min a.z b.z⟩) v

/-- The numpy constant np.pi, a fixed positive rational literal standing in
    for the double-precision value used by the code. -/
def np_pi : ℚ := 3.141592653589793

/-- helpers.object_size: size of an object, computed from the corner list of
    its bounding box and its scale as
    (amax(bound_box) - amin(bound_box)) * scale, componentwise, with no
    absolute value taken. -/
def object_size (bound_box : List Vec3) (scale : Vec3) : Vec3 :=
  (amax3 bound_box - amin3 bound_box).hmul scale

/-- np.clip with scalar bounds: min(max(v, lo), hi). -/
def npclip (v lo hi : ℚ) : ℚ := min (max v lo) hi

/-- The DEFORM_ZONE constant of
    ORTHOPEN_OT_set_foot_pivot._weight_paint. -/
def DEFORM_ZONE : ℚ := 0.02

/-- Weight assigned to one vertex by
    ORTHOPEN_OT_set_foot_pivot._weight_paint: with d the elevation of the
    vertex over the ankle point, d below zero gives weight 1 and otherwise
    the weight falls off linearly over the deform zone, clipped to [0, 1]. -/
def footWeight (ankle v : Vec3) : ℚ :=
  let d := v.z - ankle.z
  if 0 ≤ d then npclip (1 - d / DEFORM_ZONE) 0 1 else 1

/-- ORTHOPEN_OT_set_foot_pivot._weight_paint: one weight per vertex, in
    vertex order.  The source first sets every weight to 0 and then
    overwrites each vertex with its computed weight, so the net effect is
    the per-vertex formula. -/
def weight_paint (vertices : List Vec3) (ankle : Vec3) : List ℚ :=
  vertices.map (footWeight ankle)

/-- Generalisation of the weight computation with the deform zone height as
    a parameter (the source fixes it to the literal 0.02).  A zone height of
    exactly zero is the one value at which the Python expression would fail,
    with a division-by-zero error; every other value yields a clipped
    weight. -/
def footWeightGen (dz : ℚ) (ankle v : Vec3) : Except Unit ℚ :=
  let d := v.z - ankle.z
  if 0 ≤ d then
    if dz = 0 then Except.error () else Except.ok (npclip (1 - d / dz) 0 1)
  else Except.ok 1

/-- The weight computation over a vertex list with the deform zone height as
    a parameter; an error at any vertex aborts the computation, mirroring an
    uncaught Python exception. -/
def weight_paint_gen (dz : ℚ) : List Vec3 → Vec3 → Except Unit (List ℚ)
  | [], _ => Except.ok []
  | v :: vs, ankle => do
      let w ← footWeightGen dz ankle v
      let ws ← weight_paint_gen dz vs ankle
      Except.ok (w :: ws)

/-- ORTHOPEN_OT_leg_prosthesis_generate._adjust_scalings_and_sizes: from the
    dialog parameters, the corner lists of the two bounding boxes and the two
    current scales, compute the new scale of the main cosmetics part and the
    translation delta added to the fastening clip.  Follows the source line
    by line: the target cross-section is the circumference divided by pi,
    the current size is doubled on the x axis because the calf is modelled
    halved, the new scale is scale * target / current elementwise, and the
    clip is translated along z only, using the lowest z of each bounding box
    times the z scale current at that point (the main part already carries
    its new scale there). -/
def adjust_scalings_and_sizes (max_circumference height clip_position_z : ℚ)
    (main_bbox : List Vec3) (main_scale : Vec3)
    (clip_bbox : List Vec3) (clip_scale : Vec3) : Vec3 × Vec3 :=
  let xymax := max_circumference / np_pi
  let target_size : Vec3 := ⟨xymax, xymax, height⟩
  let current_size := (object_size main_bbox main_scale).hmul ⟨2, 1, 1⟩
  let new_scale := (main_scale.hmul target_size).hdiv current_size
  let offset := clip_position_z + (amin3 main_bbox).z * new_scale.z -
    (amin3 clip_bbox).z * clip_scale.z
  (new_scale, ⟨0, 0, offset⟩)

/-- 3x3 matrix over the rationals, the linear part of an affine world
    transform. -/
structure Mat3 where
  m11 : ℚ
  m12 : ℚ
  m13 : ℚ
  m21 : ℚ
  m22 : ℚ
  m23 : ℚ
  m31 : ℚ
  m32 : ℚ
  m33 : ℚ
deriving DecidableEq

/-- Determinant of a 3x3 matrix. -/
def Mat3.det (A : Mat3) : ℚ :=
  A.m11 * (A.m22 * A.m33 - A.m23 * A.m32) -
  A.m12 * (A.m21 * A.m33 - A.m23 * A.m31) +
  A.m13 * (A.m21 * A.m32 - A.m22 * A.m31)

/-- Matrix-vector product. -/
def Mat3.mulVec (A : Mat3) (v : Vec3) : Vec3 :=
  ⟨A.m11 * v.x + A.m12 * v.y + A.m13 * v.z,
   A.m21 * v.x + A.m22 * v.y + A.m23 * v.z,
   A.m31 * v.x + A.m32 * v.y + A.m33 * v.z⟩

/-- Inverse of a 3x3 matrix by the adjugate formula; none when the
    determinant vanishes. -/
def Mat3.invOpt (A : Mat3) : Option Mat3 :=
  if A.det = 0 then none
  else
    let d := A.det
    some ⟨(A.m22 * A.m33 - A.m23 * A.m32) / d,
          (A.m13 * A.m32 - A.m12 * A.m33) / d,
          (A.m12 * A.m23 - A.m13 * A.m22) / d,
          (A.m23 * A.m31 - A.m21 * A.m33) / d,
          (A.m11 * A.m33 - A.m13 * A.m31) / d,
          (A.m13 * A.m21 - A.m11 * A.m23) / d,
          (A.m21 * A.m32 - A.m22 * A.m31) / d,
          (A.m12 * A.m31 - A.m11 * A.m32) / d,
          (A.m11 * A.m22 - A.m12 * A.m21) / d⟩

/-- Affine world transform: a 4x4 matrix_world with last row 0 0 0 1,
    stored as its linear part and its translation column. -/
structure Transform where
  lin : Mat3
  tr : Vec3
deriving DecidableEq

/-- Apply the transform to a point, as matrix_world applied to a
    homogeneous point. -/
def Transform.apply (T : Transform) (v : Vec3) : Vec3 := T.lin.mulVec v + T.tr

/-- matrix_world.inverted(): the inverse affine transform, when the linear
    part is invertible.  The source calls inverted() with no fallback, so a
    non-invertible matrix raises an uncaught error there; here the none case
    carries that failure. -/
def Transform.invOpt (T : Transform) : Option Transform :=
  match T.lin.invOpt with
  | none => none
  | some L => some ⟨L, Vec3.smul (-1) (L.mulVec T.tr)⟩

/-- A triangle of a mesh, as three vertex positions in local coordinates. -/
abbrev Triangle := Vec3 × Vec3 × Vec3

/-- Unnormalised face normal of a triangle (normalising needs a square
    root, which no claim inspects). -/
def triNormal (tri : Triangle) : Vec3 := (tri.2.1 - tri.1).cross (tri.2.2 - tri.1)

/-- Modelled from the spec: the per-object ray cast obj.ray_cast is
    performed by the host application and is not in the sources; section
    4.1 prescribes a standard Moeller-Trumbore ray-triangle intersection
    returning the smallest positive parametric distance.  Returns the
    parameter t of the intersection of the ray o + t d with the triangle,
    or none. -/
def rayTriangle (o d : Vec3) (tri : Triangle) : Option ℚ :=
  let a := tri.1
  let e1 := tri.2.1 - a
  let e2 := tri.2.2 - a
  let p := d.cross e2
  let det := e1.dot p
  if det = 0 then none
  else
    let tvec := o - a
    let u := tvec.dot p / det
    if u < 0 ∨ 1 < u then none
    else
      let q := tvec.cross e1
      let v := d.dot q / det
      if v < 0 ∨ 1 < u + v then none
      else
        let t := e2.dot q / det
        if 0 < t then some t else none

/-- Modelled from the spec: the closest hit of a local ray against all
    triangles of a mesh (smallest positive parametric distance, first
    triangle winning ties), as performed by the host obj.ray_cast.  Returns
    the local intersection point, the face normal and the triangle index. -/
def meshRayCastAux (o d : Vec3) :
    List Triangle → ℕ → Option (ℚ × Vec3 × Vec3 × ℕ) → Option (ℚ × Vec3 × Vec3 × ℕ)
  | [], _, best => best
  | tri :: rest, i, best =>
    let best' :=
      match rayTriangle o d tri, best with
      | none, b => b
      | some t, none => some (t, o + Vec3.smul t d, triNormal tri, i)
      | some t, some b => if t < b.1 then some (t, o + Vec3.smul t d, triNormal tri, i) else b
    meshRayCastAux o d rest (i + 1) best'

/-- Modelled from the spec: the per-object ray cast over a whole mesh. -/
def meshRayCast (mesh : List Triangle) (o d : Vec3) : Option (Vec3 × Vec3 × ℕ) :=
  (meshRayCastAux o d mesh 0 none).map (fun b => (b.2.1, b.2.2.1, b.2.2.2))

/-- A candidate from the depsgraph loop of helpers.mouse_ray_cast: an
    object identity, whether its type is MESH, its world transform and its
    mesh triangles. -/
structure Candidate where
  name : ℕ
  isMesh : Bool
  matrix_world : Transform
  mesh : List Triangle
deriving DecidableEq

/-- The RayCastResult named tuple of helpers.mouse_ray_cast; the
    intersection point and the face normal are in object-local
    coordinates. -/
structure RayCastResult where
  object : ℕ
  intersection_point : Vec3
  face_normal : Vec3
  face_index : ℕ
deriving DecidableEq

/-- One iteration body of the helpers.mouse_ray_cast loop, up to the hit
    test: for a MESH candidate, invert its world matrix (an uncaught error
    when it is not invertible, as inverted() has no fallback), transform the
    world ray origin and target into local coordinates, take the local
    direction as their difference, and cast.  Returns the candidate-local
    result together with the squared length, in local coordinates, from the
    local ray origin to the intersection point, which is what line 77 of
    src/helpers.py computes. -/
def castCandidate (rayOriginWorld rayTargetWorld : Vec3) (c : Candidate) :
    Except Unit (Option (RayCastResult × ℚ)) :=
  if c.isMesh then
    match c.matrix_world.invOpt with
    | none => Except.error ()
    | some minv =>
      let rayOriginObj := minv.apply rayOriginWorld
      let rayTargetObj := minv.apply rayTargetWorld
      let rayDirectionObj := rayTargetObj - rayOriginObj
      match meshRayCast c.mesh rayOriginObj rayDirectionObj with
      | none => Except.ok none
      | some (ip, n, idx) =>
        Except.ok (some (⟨c.name, ip, n, idx⟩, (ip - rayOriginObj).lengthSquared))
  else Except.ok none

/-- The best-hit update of the helpers.mouse_ray_cast loop: keep the stored
    best when the candidate misses; replace it when there is no best yet or
    the new local squared length is strictly smaller. -/
def processCandidate (rayOriginWorld rayTargetWorld : Vec3)
    (st : Option RayCastResult × ℚ) (c : Candidate) :
    Except Unit (Option RayCastResult × ℚ) := do
  match ← castCandidate rayOriginWorld rayTargetWorld c with
  | none => pure st
  | some (r, lsq) =>
    if st.1.isNone || decide (lsq < st.2) then pure (some r, lsq) else pure st

/-- helpers.mouse_ray_cast, with the running best squared length kept in the
    result: fold the loop body over the candidates starting from no best
    object and best_length_squared = -1. -/
def mouse_ray_cast_full (rayOriginWorld rayTargetWorld : Vec3)
    (candidates : List Candidate) : Except Unit (Option RayCastResult × ℚ) :=
  candidates.foldlM (processCandidate rayOriginWorld rayTargetWorld) (none, -1)

/-- helpers.mouse_ray_cast: the returned named tuple (none when nothing was
    hit, mirroring the all-None tuple of the source). -/
def mouse_ray_cast (rayOriginWorld rayTargetWorld : Vec3)
    (candidates : List Candidate) : Except Unit (Option RayCastResult) :=
  (mouse_ray_cast_full rayOriginWorld rayTargetWorld candidates).map Prod.fst

/-- 2D point over the rationals, for the splint outline polygon in the
    X-Z plane. -/
structure Point2 where
  x : ℚ
  y : ℚ
deriving DecidableEq

/-- The edge list of a polygon given as an ordered point list, with the
    implicit closing edge from the last point back to the first. -/
def polyEdges : List Point2 → List (Point2 × Point2)
  | [] => []
  | p :: ps => List.zip (p :: ps) (ps ++ [p])

/-- Whether point p lies exactly on the closed segment from a to b: p is on
    the supporting line (zero 2D cross product) and inside the coordinate
    ranges of the segment. -/
def onSegment (p a b : Point2) : Bool :=
  decide ((b.x - a.x) * (p.y - a.y) = (b.y - a.y) * (p.x - a.x)) &&
  decide (min a.x b.x ≤ p.x) && decide (p.x ≤ max a.x b.x) &&
  decide (min a.y b.y ≤ p.y) && decide (p.y ≤ max a.y b.y)

/-- Whether point p lies exactly on the boundary of the polygon, that is on
    one of its edges. -/
def onBoundary (p : Point2) (polygon : List Point2) : Bool :=
  (polyEdges polygon).any (fun e => onSegment p e.1 e.2)

/-- Whether the edge from a to b crosses the horizontal ray that extends
    from p towards +infinity in x: the edge straddles the horizontal line
    through p and the crossing abscissa lies strictly to the right of p.  A
    degenerate edge with a = b straddles nothing and contributes no
    crossing. -/
def crossesRay (p a b : Point2) : Bool :=
  (decide (p.y < a.y) != decide (p.y < b.y)) &&
  decide (p.x < a.x + (p.y - a.y) * (b.x - a.x) / (b.y - a.y))

/-- Modelled from the spec: helpers.inside_polygon is called from
    ORTHOPEN_OT_foot_splint.execute but is not present in the sources;
    section 4.2 prescribes a crossing-number (ray-casting) point-in-polygon
    test with an odd crossing count meaning inside, a point exactly on an
    edge classified as inside (closed region), and degenerate edges
    contributing no crossing. -/
def inside_polygon (point : Point2) (polygon : List Point2) : Bool :=
  onBoundary point polygon ||
    decide ((polyEdges polygon).countP (fun e => crossesRay point e.1 e.2) % 2 = 1)

/-- The square polygon of the spec test case for the region selector. -/
def squarePoly : List Point2 := [⟨0, 0⟩, ⟨10, 0⟩, ⟨10, 10⟩, ⟨0, 10⟩]

/-- The identity 3x3 matrix. -/
def idMat3 : Mat3 := ⟨1, 0, 0, 0, 1, 0, 0, 0, 1⟩

/-- Uniform scaling 3x3 matrix. -/
def scaleMat3 (s : ℚ) : Mat3 := ⟨s, 0, 0, 0, s, 0, 0, 0, s⟩

/-- Test candidate A: identity world transform, one large triangle lying in
    the plane z = 5 across the z axis. -/
def candA : Candidate :=
  ⟨0, true, ⟨idMat3, ⟨0, 0, 0⟩⟩, [(⟨-10, -10, 5⟩, ⟨10, -10, 5⟩, ⟨0, 10, 5⟩)]⟩

/-- Test candidate B: world transform scaling by 10, one large triangle
    lying in the local plane z = 4/5, hence in the world plane z = 8. -/
def candB : Candidate :=
  ⟨1, true, ⟨scaleMat3 10, ⟨0, 0, 0⟩⟩,
   [(⟨-10, -10, 4/5⟩, ⟨10, -10, 4/5⟩, ⟨0, 10, 4/5⟩)]⟩

/-- Test candidate with a non-invertible (zero) world transform. -/
def candBad : Candidate :=
  ⟨2, true, ⟨⟨0, 0, 0, 0, 0, 0, 0, 0, 0⟩, ⟨0, 0, 0⟩⟩,
   [(⟨-10, -10, 5⟩, ⟨10, -10, 5⟩, ⟨0, 10, 5⟩)]⟩

lemma foldl_pick_mono (rayO rayT : Vec3) (cands : List Candidate) :
    ∀ (r0 : RayCastResult) (L0 : ℚ) (s1 : Option RayCastResult) (L1 : ℚ),
      List.foldlM (processCandidate rayO rayT) ((some r0 : Option RayCastResult), L0) cands =
        Except.ok (s1, L1) →
      L1 ≤ L0 ∧ ∃ r1, s1 = some r1 := by
  induction cands with
  | nil =>
    intro r0 L0 s1 L1 h
    simp only [List.foldlM_nil, pure, Except.pure, Except.ok.injEq, Prod.mk.injEq] at h
    exact ⟨le_of_eq h.2.symm, r0, h.1.symm⟩
  | cons c rest ih =>
    intro r0 L0 s1 L1 h
    rw [List.foldlM_cons] at h
    cases hc : castCandidate rayO rayT c with
    | error e => simp [processCandidate, hc, bind, Except.bind] at h
    | ok v =>
      cases v with
      | none =>
        simp only [processCandidate, hc, bind, Except.bind, pure, Except.pure] at h
        exact ih r0 L0 s1 L1 h
      | some p =>
        obtain ⟨r, lsq⟩ := p
        by_cases hlt : lsq < L0
        · simp only [processCandidate, hc, bind, Except.bind, pure, Except.pure, hlt,
            Option.isNone_some, Bool.false_or, decide_eq_true_eq, if_true, decide_True] at h
          obtain ⟨h1, h2⟩ := ih r lsq s1 L1 h
          exact ⟨le_trans h1 (le_of_lt hlt), h2⟩
        · simp only [processCandidate, hc, bind, Except.bind, pure, Except.pure, hlt,
            Option.isNone_some, Bool.false_or, decide_eq_true_eq, if_false, decide_False] at h
          exact ih r0 L0 s1 L1 h

lemma foldl_pick_bound (rayO rayT : Vec3) (cands : List Candidate) :
    ∀ (s0 : Option RayCastResult × ℚ) (s1 : Option RayCastResult) (L1 : ℚ),
      List.foldlM (processCandidate rayO rayT) s0 cands = Except.ok (s1, L1) →
      ∀ c ∈ cands, ∀ r q, castCandidate rayO rayT c = Except.ok (some (r, q)) → L1 ≤ q := by
  induction cands with
  | nil => intro s0 s1 L1 h c hc; simp at hc
  | cons c0 rest ih =>
    intro s0 s1 L1 h c hc r q hcast
    rw [List.foldlM_cons] at h
    rcases List.mem_cons.mp hc with rfl | hmem
    · -- c is the head candidate and its cast yields the hit (r, q)
      simp only [processCandidate, hcast, bind, Except.bind, pure, Except.pure] at h
      obtain ⟨sf, Lf⟩ := s0
      cases sf with
      | none =>
        simp only [Option.isNone_none, Bool.true_or, if_true] at h
        exact (foldl_pick_mono rayO rayT rest r q s1 L1 h).1
      | some r0 =>
        by_cases hlt : q < Lf
        · simp only [Option.isNone_some, Bool.false_or, decide_eq_true_eq, hlt, if_true] at h
          exact (foldl_pick_mono rayO rayT rest r q s1 L1 h).1
        · simp only [Option.isNone_some, Bool.false_or, decide_eq_true_eq, hlt, if_false] at h
          exact le_trans (foldl_pick_mono rayO rayT rest r0 Lf s1 L1 h).1 (le_of_not_lt hlt)
    · -- c sits in the tail; step over the head and use the induction hypothesis
      cases hc0 : castCandidate rayO rayT c0 with
      | error e => simp [processCandidate, hc0, bind, Except.bind] at h
      | ok v =>
        cases v with
        | none =>
          simp only [processCandidate, hc0, bind, Except.bind, pure, Except.pure] at h
          exact ih s0 s1 L1 h c hmem r q hcast
        | some p =>
          obtain ⟨r0, lsq0⟩ := p
          simp only [processCandidate, hc0, bind, Except.bind, pure, Except.pure] at h
          by_cases hcond : (s0.1.isNone || decide (lsq0 < s0.2)) = true
          · rw [if_pos hcond] at h
            exact ih _ s1 L1 h c hmem r q hcast
          · rw [if_neg hcond] at h
            exact ih s0 s1 L1 h c hmem r q hcast

lemma foldl_pick_provenance (rayO rayT : Vec3) (cands : List Candidate) :
    ∀ (s0 : Option RayCastResult × ℚ) (r1 : RayCastResult) (L1 : ℚ),
      List.foldlM (processCandidate rayO rayT) s0 cands = Except.ok (some r1, L1) →
      s0 = (some r1, L1) ∨
        ∃ c ∈ cands, castCandidate rayO rayT c = Except.ok (some (r1, L1)) := by
  induction cands with
  | nil =>
    intro s0 r1 L1 h
    simp only [List.foldlM_nil, pure, Except.pure, Except.ok.injEq] at h
    exact Or.inl h
  | cons c0 rest ih =>
    intro s0 r1 L1 h
    rw [List.foldlM_cons] at h
    cases hc0 : castCandidate rayO rayT c0 with
    | error e => simp [processCandidate, hc0, bind, Except.bind] at h
    | ok v =>
      cases v with
      | none =>
        simp only [processCandidate, hc0, bind, Except.bind, pure, Except.pure] at h
        rcases ih s0 r1 L1 h with h1 | ⟨c, hcmem, hccast⟩
        · exact Or.inl h1
        · exact Or.inr ⟨c, List.mem_cons_of_mem _ hcmem, hccast⟩
      | some p =>
        obtain ⟨r0, lsq0⟩ := p
        simp only [processCandidate, hc0, bind, Except.bind, pure, Except.pure] at h
        by_cases hcond : (s0.1.isNone || decide (lsq0 < s0.2)) = true
        · rw [if_pos hcond] at h
          rcases ih _ r1 L1 h with h1 | ⟨c, hcmem, hccast⟩
          · refine Or.inr ⟨c0, List.mem_cons_self _ _, ?_⟩
            rw [Prod.mk.injEq, Option.some.injEq] at h1
            rw [hc0, h1.1, h1.2]
          · exact Or.inr ⟨c, List.mem_cons_of_mem _ hcmem, hccast⟩
        · rw [if_neg hcond] at h
          rcases ih s0 r1 L1 h with h1 | ⟨c, hcmem, hccast⟩
          · exact Or.inl h1
          · exact Or.inr ⟨c, List.mem_cons_of_mem _ hcmem, hccast⟩

lemma castCandidate_error_of_noninvertible (rayO rayT : Vec3) (c : Candidate)
    (hm : c.isMesh = true) (hd : c.matrix_world.lin.det = 0) :
    castCandidate rayO rayT c = Except.error () := by
  simp [castCandidate, hm, Transform.invOpt, Mat3.invOpt, hd]

lemma foldl_pick_error (rayO rayT : Vec3) (cands : List Candidate) :
    ∀ (s0 : Option RayCastResult × ℚ),
      (∃ c ∈ cands, c.isMesh = true ∧ c.matrix_world.lin.det = 0) →
      List.foldlM (processCandidate rayO rayT) s0 cands = Except.error () := by
  induction cands with
  | nil => intro s0 h; obtain ⟨c, hc, _⟩ := h; simp at hc
  | cons c0 rest ih =>
    intro s0 h
    rw [List.foldlM_cons]
    obtain ⟨c, hc, hm, hd⟩ := h
    rcases List.mem_cons.mp hc with rfl | hmem
    · simp [processCandidate, castCandidate_error_of_noninvertible rayO rayT c hm hd,
        bind, Except.bind]
    · cases hp : processCandidate rayO rayT s0 c0 with
      | error e => simp [bind, Except.bind, hp]
      | ok st =>
        simp only [bind, Except.bind, hp]
        exact ih st ⟨c, hmem, hm, hd⟩

/-- Claim C1, amended: for every ray and candidate list on which the pick
    succeeds with a hit, the returned hit is one produced by a candidate of
    the list and its squared distance, measured in that candidate's local
    object space from the local ray origin to the local intersection point,
    is the smallest such local squared distance over all candidate hits.
    The comparison the source makes on line 77 of src/helpers.py is this
    local one, not the world-space one of the claim. -/
theorem mouse_ray_cast_min_local (rayO rayT : Vec3) (cands : List Candidate)
    (r : RayCastResult) (L : ℚ)
    (h : mouse_ray_cast_full rayO rayT cands = Except.ok (some r, L)) :
    (∃ c ∈ cands, castCandidate rayO rayT c = Except.ok (some (r, L))) ∧
    ∀ c ∈ cands, ∀ r' q, castCandidate rayO rayT c = Except.ok (some (r', q)) → L ≤ q := by
  constructor
  · rcases foldl_pick_provenance rayO rayT cands (none, -1) r L h with h1 | h1
    · exact absurd (congrArg Prod.fst h1) (by simp)
    · exact h1
  · exact foldl_pick_bound rayO rayT cands (none, -1) (some r) L h

/-- Witness for C1 amended: on the two concrete candidates the pick returns
    the candidate B hit with the smallest local squared distance 16/25. -/
theorem mouse_ray_cast_min_local_witness :
    (∃ c ∈ [candA, candB], castCandidate ⟨0, 0, 0⟩ ⟨0, 0, 1⟩ c =
        Except.ok (some (⟨1, ⟨0, 0, 4/5⟩, ⟨0, 0, 400⟩, 0⟩, 16/25))) ∧
    ∀ c ∈ [candA, candB], ∀ r' q,
      castCandidate ⟨0, 0, 0⟩ ⟨0, 0, 1⟩ c = Except.ok (some (r', q)) → (16/25 : ℚ) ≤ q :=
  mouse_ray_cast_min_local ⟨0, 0, 0⟩ ⟨0, 0, 1⟩ [candA, candB]
    ⟨1, ⟨0, 0, 4/5⟩, ⟨0, 0, 400⟩, 0⟩ (16/25)
    (by norm_num [mouse_ray_cast_full, List.foldlM_cons, List.foldlM_nil,
      processCandidate, castCandidate, candA, candB, idMat3, scaleMat3, Transform.invOpt,
      Mat3.invOpt, Mat3.det, Transform.apply, Mat3.mulVec, meshRayCast, meshRayCastAux,
      rayTriangle, Vec3.cross, Vec3.dot, Vec3.smul, Vec3.lengthSquared, triNormal,
      Option.isNone, bind, Except.bind, pure, Except.pure])

/-- Counterexample to claim C1 as stated: with the ray from the origin
    towards +z, candidate A (unit scale, surface at world distance 5) and
    candidate B (scaled 10x, surface at world distance 8), the pick returns
    the hit on candidate B, whose intersection point transformed back to
    world space lies at squared distance 64 from the world ray origin, even
    though candidate A offers a hit at world squared distance 25 < 64: the
    returned hit is not the one with the smallest world-space squared
    distance. -/
theorem mouse_ray_cast_world_metric_cex :
    mouse_ray_cast ⟨0, 0, 0⟩ ⟨0, 0, 1⟩ [candA, candB] =
      Except.ok (some ⟨1, ⟨0, 0, 4/5⟩, ⟨0, 0, 400⟩, 0⟩) ∧
    (candB.matrix_world.apply ⟨0, 0, 4/5⟩ - ⟨0, 0, 0⟩).lengthSquared = 64 ∧
    castCandidate ⟨0, 0, 0⟩ ⟨0, 0, 1⟩ candA =
      Except.ok (some (⟨0, ⟨0, 0, 5⟩, ⟨0, 0, 400⟩, 0⟩, 25)) ∧
    (candA.matrix_world.apply ⟨0, 0, 5⟩ - ⟨0, 0, 0⟩).lengthSquared = 25 ∧
    ((25 : ℚ) < 64) := by
  refine ⟨?_, ?_, ?_, ?_, by norm_num⟩ <;>
    norm_num [mouse_ray_cast, mouse_ray_cast_full, List.foldlM_cons, List.foldlM_nil,
      processCandidate, castCandidate, candA, candB, idMat3, scaleMat3, Transform.invOpt,
      Mat3.invOpt, Mat3.det, Transform.apply, Mat3.mulVec, meshRayCast, meshRayCastAux,
      rayTriangle, Vec3.cross, Vec3.dot, Vec3.smul, Vec3.lengthSquared, triNormal,
      Option.isNone, bind, Except.bind, pure, Except.pure, Except.map]

/-- Claim C2: the point-in-polygon classification (modelled from the spec,
    the helper being absent from the sources) returns true for every point
    exactly on an edge of a polygon with at least 3 points, and on the
    square (0,0)-(10,0)-(10,10)-(0,10) it classifies (5,5) inside, (15,5)
    outside and the boundary point (0,5) inside. -/
theorem inside_polygon_spec :
    (∀ (polygon : List Point2) (p : Point2), 3 ≤ polygon.length →
      onBoundary p polygon = true → inside_polygon p polygon = true) ∧
    inside_polygon ⟨5, 5⟩ squarePoly = true ∧
    inside_polygon ⟨15, 5⟩ squarePoly = false ∧
    inside_polygon ⟨0, 5⟩ squarePoly = true := by
  refine ⟨fun polygon p _ hb => by simp [inside_polygon, hb], ?_, ?_, ?_⟩ <;>
    norm_num [inside_polygon, onBoundary, onSegment, crossesRay, polyEdges, squarePoly,
      List.countP, List.countP.go, List.any]

/-- Witness for C2: the point (0,5) lies on the boundary of the square
    polygon, which has 4 points, and is classified inside. -/
theorem inside_polygon_spec_witness :
    3 ≤ squarePoly.length ∧ onBoundary ⟨0, 5⟩ squarePoly = true ∧
    inside_polygon ⟨0, 5⟩ squarePoly = true :=
  ⟨by norm_num [squarePoly],
   by norm_num [onBoundary, onSegment, polyEdges, squarePoly, List.any],
   inside_polygon_spec.1 squarePoly ⟨0, 5⟩ (by norm_num [squarePoly])
     (by norm_num [onBoundary, onSegment, polyEdges, squarePoly, List.any])⟩

/-- Claim C3: the weight field has one weight per input vertex in order;
    the weight of vertex i is 1 when its elevation d over the pivot is
    negative and clip(1 - d / 0.02, 0, 1) when d is nonnegative; and on the
    five spec vertices with the pivot at z = 0 the weights are
    1, 1, 0.5, 0, 0. -/
theorem weight_paint_spec :
    (∀ (vertices : List Vec3) (ankle : Vec3),
      (weight_paint vertices ankle).length = vertices.length) ∧
    (∀ (vertices : List Vec3) (ankle : Vec3) (i : ℕ) (hi : i < vertices.length),
      (weight_paint vertices ankle).getD i 0 =
        (if 0 ≤ (vertices.getD i ⟨0, 0, 0⟩).z - ankle.z then
          min (max (1 - ((vertices.getD i ⟨0, 0, 0⟩).z - ankle.z) / (0.02 : ℚ)) 0) 1
        else 1)) ∧
    weight_paint [⟨0, 0, -1⟩, ⟨0, 0, 0⟩, ⟨0, 0, 0.01⟩, ⟨0, 0, 0.02⟩, ⟨0, 0, 1⟩] ⟨0, 0, 0⟩ =
      [1, 1, 0.5, 0, 0] := by
  refine ⟨fun vs ankle => by simp [weight_paint], fun vs ankle i hi => ?_, by
    norm_num [weight_paint, footWeight, npclip, DEFORM_ZONE]⟩
  simp only [weight_paint, List.getD, List.get?_map, List.get?_eq_get hi]
  simp [footWeight, npclip, DEFORM_ZONE]

/-- Witness for C3: the vertex at index 2 (z = 0.01) of the spec list gets
    the formula value, 0.5. -/
theorem weight_paint_spec_witness :
    (2 < ([⟨0, 0, -1⟩, ⟨0, 0, 0⟩, ⟨0, 0, 0.01⟩, ⟨0, 0, 0.02⟩, ⟨0, 0, 1⟩] : List Vec3).length) ∧
    (weight_paint [⟨0, 0, -1⟩, ⟨0, 0, 0⟩, ⟨0, 0, 0.01⟩, ⟨0, 0, 0.02⟩, ⟨0, 0, 1⟩]
        ⟨0, 0, 0⟩).getD 2 0 =
      (if 0 ≤ (([⟨0, 0, -1⟩, ⟨0, 0, 0⟩, ⟨0, 0, 0.01⟩, ⟨0, 0, 0.02⟩, ⟨0, 0, 1⟩] :
            List Vec3).getD 2 ⟨0, 0, 0⟩).z - (⟨0, 0, 0⟩ : Vec3).z then
        min (max (1 - ((([⟨0, 0, -1⟩, ⟨0, 0, 0⟩, ⟨0, 0, 0.01⟩, ⟨0, 0, 0.02⟩, ⟨0, 0, 1⟩] :
            List Vec3).getD 2 ⟨0, 0, 0⟩).z - (⟨0, 0, 0⟩ : Vec3).z) / (0.02 : ℚ)) 0) 1
      else 1) :=
  ⟨by norm_num, weight_paint_spec.2.1 _ ⟨0, 0, 0⟩ 2 (by norm_num)⟩

/-- Claim C4: for every current bounding box, current scale and target, the
    computed new scale equals current_scale * target / current_physical_size
    elementwise, where the target cross-section is the circumference divided
    by pi (circumference-to-diameter conversion) and the current physical
    size is the bounding-box extent times the current scale pre-doubled on
    the x axis; concretely, size (0.1,0.1,0.2) doubled to (0.2,0.1,0.2) on
    x, unit scale, target circumference 0.35 pi and height 0.2 yield the
    new scale x component 1.75. -/
theorem adjust_scale_formula_spec :
    (∀ (C h z : ℚ) (mb : List Vec3) (ms : Vec3) (cb : List Vec3) (cs : Vec3),
      (adjust_scalings_and_sizes C h z mb ms cb cs).1 =
        (ms.hmul ⟨C / np_pi, C / np_pi, h⟩).hdiv ((object_size mb ms).hmul ⟨2, 1, 1⟩)) ∧
    (adjust_scalings_and_sizes (0.35 * np_pi) 0.2 0.1
      [⟨0, 0, 0⟩, ⟨0.1, 0.1, 0.2⟩] ⟨1, 1, 1⟩ [⟨0, 0, 0.3⟩, ⟨0.1, 0.1, 0.5⟩] ⟨1, 1, 2⟩).1 =
      ⟨1.75, 3.5, 1⟩ := by
  refine ⟨fun C h z mb ms cb cs => rfl, ?_⟩
  norm_num [adjust_scalings_and_sizes, object_size, amax3, amin3, Vec3.hmul, Vec3.hdiv, np_pi]

/-- Counterexample to claim C5 as stated: the weight computation run with
    the non-positive deform zone height -1 does not fail; it returns the
    clipped weight 1 for a vertex 0.01 above the pivot.  No InvalidParameter
    check exists in the source, whose zone height is the fixed literal
    0.02. -/
theorem weight_zone_nonpositive_no_error_cex :
    weight_paint_gen (-1) [⟨0, 0, 0.01⟩] ⟨0, 0, 0⟩ = Except.ok [1] := by
  norm_num [weight_paint_gen, footWeightGen, npclip, bind, Except.bind, pure, Except.pure]

/-- Claim C5, amended: the source fixes the deform zone height to the
    constant 0.02, which is positive, and performs no validation; at this
    constant the computation never fails and returns exactly the weight
    list of the production code. -/
theorem weight_paint_fixed_zone_total :
    (∀ (vertices : List Vec3) (ankle : Vec3),
      weight_paint_gen DEFORM_ZONE vertices ankle = Except.ok (weight_paint vertices ankle)) ∧
    (0 : ℚ) < DEFORM_ZONE := by
  refine ⟨fun vertices ankle => ?_, by norm_num [DEFORM_ZONE]⟩
  induction vertices with
  | nil => simp [weight_paint_gen, weight_paint]
  | cons v vs ih =>
    simp only [weight_paint_gen, weight_paint, List.map_cons, footWeightGen, footWeight,
      bind, Except.bind, pure, Except.pure]
    have hdz : DEFORM_ZONE ≠ 0 := by norm_num [DEFORM_ZONE]
    by_cases hd : 0 ≤ v.z - ankle.z
    · simp only [hd, if_true, hdz, if_false, if_neg hdz]
      simp only [weight_paint] at ih
      rw [ih]
    · simp only [hd, if_false]
      simp only [weight_paint] at ih
      rw [ih]

/-- Counterexample to claim C6 as stated: with a bounding box of zero x
    extent the fitment computation does not fail and does not abort; it
    silently returns a scale and translation (the x quotient through zero
    being 0 under the division convention of ℚ, an inf under numpy, in
    either case a value and not an error). -/
theorem fit_degenerate_silent_cex :
    adjust_scalings_and_sizes (0.35 * np_pi) 0.2 0.1 [⟨0, 0, 0⟩, ⟨0, 1, 2⟩] ⟨1, 1, 1⟩
      [⟨0, 0, 0⟩] ⟨1, 1, 1⟩ = (⟨0, 0.35, 0.1⟩, ⟨0, 0, 0.1⟩) := by
  norm_num [adjust_scalings_and_sizes, object_size, amax3, amin3, Vec3.hmul, Vec3.hdiv, np_pi]

/-- Claim C6, amended: the fitment computation performs no degeneracy check
    and signals nothing: whenever the current physical x size is zero it
    still returns, with the x scale component collapsing by the division
    convention instead of raising a DegenerateGeometry condition. -/
theorem fit_degenerate_silent (C h z : ℚ) (mb : List Vec3) (ms : Vec3)
    (cb : List Vec3) (cs : Vec3) (hx : (object_size mb ms).x = 0) :
    (adjust_scalings_and_sizes C h z mb ms cb cs).1.x = 0 := by
  simp [adjust_scalings_and_sizes, Vec3.hmul, Vec3.hdiv, hx]

/-- Witness for C6 amended: a concrete degenerate box with zero x extent on
    which the computation returns the zero x scale. -/
theorem fit_degenerate_silent_witness :
    (object_size [⟨0, 0, 0⟩, ⟨0, 1, 2⟩] ⟨1, 1, 1⟩).x = 0 ∧
    (adjust_scalings_and_sizes (0.35 * np_pi) 0.2 0.1 [⟨0, 0, 0⟩, ⟨0, 1, 2⟩] ⟨1, 1, 1⟩
      [⟨0, 0, 0⟩] ⟨1, 1, 1⟩).1.x = 0 :=
  ⟨by norm_num [object_size, amax3, amin3, Vec3.hmul],
   fit_degenerate_silent (0.35 * np_pi) 0.2 0.1 [⟨0, 0, 0⟩, ⟨0, 1, 2⟩] ⟨1, 1, 1⟩ [⟨0, 0, 0⟩]
     ⟨1, 1, 1⟩ (by norm_num [object_size, amax3, amin3, Vec3.hmul])⟩

/-- Claim C7: for every pair of parts the translation delta applied to the
    secondary part is along z only (x and y components zero) and its z
    component is the anchor offset plus the primary bounding-box minimum z
    times the primary z scale (the newly computed one) minus the secondary
    bounding-box minimum z times the secondary z scale; concretely the spec
    inputs give the delta (0, 0, -0.5). -/
theorem adjust_translation_offset_spec :
    (∀ (C h z : ℚ) (mb : List Vec3) (ms : Vec3) (cb : List Vec3) (cs : Vec3),
      (adjust_scalings_and_sizes C h z mb ms cb cs).2 =
        ⟨0, 0, z + (amin3 mb).z * (adjust_scalings_and_sizes C h z mb ms cb cs).1.z -
          (amin3 cb).z * cs.z⟩) ∧
    (adjust_scalings_and_sizes (0.35 * np_pi) 0.2 0.1
      [⟨0, 0, 0⟩, ⟨0.1, 0.1, 0.2⟩] ⟨1, 1, 1⟩ [⟨0, 0, 0.3⟩, ⟨0.1, 0.1, 0.5⟩] ⟨1, 1, 2⟩).2 =
      ⟨0, 0, -0.5⟩ := by
  refine ⟨fun C h z mb ms cb cs => rfl, ?_⟩
  norm_num [adjust_scalings_and_sizes, object_size, amax3, amin3, Vec3.hmul, Vec3.hdiv, np_pi]

/-- Claim C8, amended: the pick inverts the world matrix of every MESH
    candidate unguarded, so a candidate with a non-invertible transform
    aborts the whole pick with an error; no skip-and-continue exists.  (The
    stated data-model invariant keeps such candidates out of the pick.) -/
theorem pick_aborts_on_noninvertible (rayO rayT : Vec3) (cands : List Candidate)
    (c : Candidate) (hc : c ∈ cands) (hm : c.isMesh = true)
    (hd : c.matrix_world.lin.det = 0) :
    mouse_ray_cast rayO rayT cands = Except.error () := by
  rw [mouse_ray_cast, mouse_ray_cast_full, foldl_pick_error rayO rayT cands _ ⟨c, hc, hm, hd⟩]
  rfl

/-- Witness for C8 amended: the concrete list holding the zero-matrix
    candidate makes the pick abort. -/
theorem pick_aborts_on_noninvertible_witness :
    candBad ∈ [candA, candBad] ∧ candBad.isMesh = true ∧
    candBad.matrix_world.lin.det = 0 ∧
    mouse_ray_cast ⟨0, 0, 0⟩ ⟨0, 0, 1⟩ [candA, candBad] = Except.error () :=
  ⟨by simp, by norm_num [candBad], by norm_num [candBad, Mat3.det],
   pick_aborts_on_noninvertible ⟨0, 0, 0⟩ ⟨0, 0, 1⟩ [candA, candBad] candBad (by simp)
     (by norm_num [candBad]) (by norm_num [candBad, Mat3.det])⟩

/-- Counterexample to claim C8 as stated: with the non-invertible candidate
    first in the list the whole pick fails with an error, although dropping
    that candidate leaves a list on which the pick succeeds with a hit, so
    the candidate is not skipped. -/
theorem pick_noninvertible_cex :
    mouse_ray_cast ⟨0, 0, 0⟩ ⟨0, 0, 1⟩ [candBad, candA] = Except.error () ∧
    mouse_ray_cast ⟨0, 0, 0⟩ ⟨0, 0, 1⟩ [candA] =
      Except.ok (some ⟨0, ⟨0, 0, 5⟩, ⟨0, 0, 400⟩, 0⟩) := by
  constructor <;>
    norm_num [mouse_ray_cast, mouse_ray_cast_full, List.foldlM_cons, List.foldlM_nil,
      processCandidate, castCandidate, candA, candBad, idMat3, Transform.invOpt,
      Mat3.invOpt, Mat3.det, Transform.apply, Mat3.mulVec, meshRayCast, meshRayCastAux,
      rayTriangle, Vec3.cross, Vec3.dot, Vec3.smul, Vec3.lengthSquared, triNormal,
      Option.isNone, bind, Except.bind, pure, Except.pure, Except.map]

/-- One axis of the round-trip identity for the fitment formula. -/
lemma fit_axis (e m t c : ℚ) (he : e ≠ 0) (hm : m ≠ 0) (hc : c ≠ 0) :
    e * (m * t / (e * m * c)) * c = t := by
  field_simp
  ring

/-- Claim C9: for positive bounding-box extents, positive current scales
    and positive targets, applying the computed scale to the current
    bounding box (with the x axis doubled as for the current size)
    reproduces the target dimensions exactly in the rational model, hence
    within floating-point tolerance in the code. -/
theorem fit_round_trip (C h z : ℚ) (mb : List Vec3) (ms : Vec3) (cb : List Vec3) (cs : Vec3)
    (hex : 0 < (amax3 mb - amin3 mb).x) (hey : 0 < (amax3 mb - amin3 mb).y)
    (hez : 0 < (amax3 mb - amin3 mb).z)
    (hsx : 0 < ms.x) (hsy : 0 < ms.y) (hsz : 0 < ms.z) (hC : 0 < C) (hh : 0 < h) :
    (object_size mb ((adjust_scalings_and_sizes C h z mb ms cb cs).1)).hmul ⟨2, 1, 1⟩ =
      ⟨C / np_pi, C / np_pi, h⟩ := by
  simp only [object_size, adjust_scalings_and_sizes, Vec3.hmul, Vec3.hdiv, Vec3.mk.injEq]
  exact ⟨fit_axis _ _ _ _ (ne_of_gt hex) (ne_of_gt hsx) two_ne_zero,
         fit_axis _ _ _ _ (ne_of_gt hey) (ne_of_gt hsy) one_ne_zero,
         fit_axis _ _ _ _ (ne_of_gt hez) (ne_of_gt hsz) one_ne_zero⟩

/-- Witness for C9: the spec example box of size (0.1, 0.1, 0.2) with unit
    scale and target circumference 0.35 pi and height 0.2 round-trips to
    the target dimensions. -/
theorem fit_round_trip_witness :
    (0 < ((amax3 [⟨0, 0, 0⟩, ⟨0.1, 0.1, 0.2⟩] - amin3 [⟨0, 0, 0⟩, ⟨0.1, 0.1, 0.2⟩]).x) ∧
     0 < ((amax3 [⟨0, 0, 0⟩, ⟨0.1, 0.1, 0.2⟩] - amin3 [⟨0, 0, 0⟩, ⟨0.1, 0.1, 0.2⟩]).y) ∧
     0 < ((amax3 [⟨0, 0, 0⟩, ⟨0.1, 0.1, 0.2⟩] - amin3 [⟨0, 0, 0⟩, ⟨0.1, 0.1, 0.2⟩]).z) ∧
     0 < (0.35 * np_pi : ℚ)) ∧
    (object_size [⟨0, 0, 0⟩, ⟨0.1, 0.1, 0.2⟩]
        ((adjust_scalings_and_sizes (0.35 * np_pi) 0.2 0.1 [⟨0, 0, 0⟩, ⟨0.1, 0.1, 0.2⟩]
          ⟨1, 1, 1⟩ [⟨0, 0, 0.3⟩] ⟨1, 1, 1⟩).1)).hmul ⟨2, 1, 1⟩ =
      ⟨0.35 * np_pi / np_pi, 0.35 * np_pi / np_pi, 0.2⟩ :=
  ⟨by norm_num [amax3, amin3, np_pi],
   fit_round_trip (0.35 * np_pi) 0.2 0.1 [⟨0, 0, 0⟩, ⟨0.1, 0.1, 0.2⟩] ⟨1, 1, 1⟩ [⟨0, 0, 0.3⟩]
     ⟨1, 1, 1⟩ (by norm_num [amax3, amin3]) (by norm_num [amax3, amin3])
     (by norm_num [amax3, amin3]) (by norm_num) (by norm_num) (by norm_num)
     (by norm_num [np_pi]) (by norm_num)⟩

/-- Claim C10: object_size takes no absolute value, so a negative scale
    component makes the returned size negative on that axis, and the
    downstream fitment then produces, without any error, a scale component
    of flipped sign relative to the current scale (positive where the
    current scale is negative, undoing the mirroring). -/
theorem object_size_negative_scale_mirror (C h z : ℚ) (mb : List Vec3) (ms : Vec3)
    (cb : List Vec3) (cs : Vec3)
    (hex : 0 < (amax3 mb - amin3 mb).x) (hsx : ms.x < 0) (hC : 0 < C) :
    (object_size mb ms).x < 0 ∧
    0 < (adjust_scalings_and_sizes C h z mb ms cb cs).1.x ∧
    (adjust_scalings_and_sizes C h z mb ms cb cs).1.x * ms.x < 0 := by
  have hpi : (0 : ℚ) < np_pi := by norm_num [np_pi]
  have hsize : (object_size mb ms).x < 0 := by
    simp only [object_size, Vec3.hmul]
    exact mul_neg_of_pos_of_neg hex hsx
  have htx : 0 < C / np_pi := div_pos hC hpi
  have hnum : ms.x * (C / np_pi) < 0 := mul_neg_of_neg_of_pos hsx htx
  have hden : (object_size mb ms).x * 2 < 0 := by linarith
  have hposx : 0 < (adjust_scalings_and_sizes C h z mb ms cb cs).1.x := by
    simp only [adjust_scalings_and_sizes, Vec3.hmul, Vec3.hdiv]
    exact div_pos_of_neg_of_neg hnum hden
  exact ⟨hsize, hposx, mul_neg_of_pos_of_neg hposx hsx⟩

/-- Witness for C10: the spec example box mirrored by the scale (-1, 1, 1)
    yields the negative size component -0.1 and the positive new scale
    component 1.75 of flipped sign. -/
theorem object_size_negative_scale_mirror_witness :
    (0 < ((amax3 [⟨0, 0, 0⟩, ⟨0.1, 0.1, 0.2⟩] - amin3 [⟨0, 0, 0⟩, ⟨0.1, 0.1, 0.2⟩]).x) ∧
     (⟨-1, 1, 1⟩ : Vec3).x < 0 ∧ 0 < (0.35 * np_pi : ℚ)) ∧
    (object_size [⟨0, 0, 0⟩, ⟨0.1, 0.1, 0.2⟩] ⟨-1, 1, 1⟩).x < 0 ∧
    0 < (adjust_scalings_and_sizes (0.35 * np_pi) 0.2 0.1 [⟨0, 0, 0⟩, ⟨0.1, 0.1, 0.2⟩]
      ⟨-1, 1, 1⟩ [⟨0, 0, 0.3⟩] ⟨1, 1, 1⟩).1.x ∧
    (adjust_scalings_and_sizes (0.35 * np_pi) 0.2 0.1 [⟨0, 0, 0⟩, ⟨0.1, 0.1, 0.2⟩]
      ⟨-1, 1, 1⟩ [⟨0, 0, 0.3⟩] ⟨1, 1, 1⟩).1.x * (⟨-1, 1, 1⟩ : Vec3).x < 0 :=
  ⟨by norm_num [amax3, amin3, np_pi],
   object_size_negative_scale_mirror (0.35 * np_pi) 0.2 0.1 [⟨0, 0, 0⟩, ⟨0.1, 0.1, 0.2⟩]
     ⟨-1, 1, 1⟩ [⟨0, 0, 0.3⟩] ⟨1, 1, 1⟩ (by norm_num [amax3, amin3]) (by norm_num)
     (by norm_num [np_pi])⟩
